import Mathlib

/-!
# server_chat: the event loop, the registry and the signal bridge of `chat.cc`

A shallow embedding of `src/chat.cc` / `src/chat.h`.

* A `std::string` is a list of bytes, written `List Char` (one `Char` per byte).
* The operating system is a record `Os`: the set of open descriptors and the
  trace of the `::close` / `::send` calls made so far.  `::close(fd)` returns
  `0` when `fd` is open and `-1` (EBADF) when it is not.
* The answers of the other system calls (`::send`, `::accept`, `::recv`,
  `getline`, `sigtimedwait`) are inputs of the functions that make them.
* A C++ function that can throw returns a `Result`: the value and the state
  when it returns, or the exception and the state reached when it was thrown.
-/

namespace Chat

/-! ## Constants of the system headers (Linux values) -/

def STDIN_FILENO : Int := 0
def POLLIN : Int := 1

def SIGHUP : Int := 1
def SIGINT : Int := 2
def SIGUSR1 : Int := 10
def SIGUSR2 : Int := 12
def SIGPIPE : Int := 13
def SIGALRM : Int := 14
def SIGTERM : Int := 15
def SIGCHLD : Int := 17

def EINTR : Int := 4
def EAGAIN : Int := 11

/-! ## Exceptions and results -/

/-- The `std::runtime_error`s of `chat.cc` that the embedded code can throw,
one constructor per message. -/
inductive Error
  | closeFailed          -- "close has failed"
  | sendFailed           -- "send() has failed"
  | acceptFailed         -- "accept() has failed"
  | sigtimedwaitFailed   -- "sigtimedwait() has failed"
  deriving DecidableEq, Repr

/-- Outcome of a C++ call over a state `σ`: a normal return with a value, or an
exception together with the state reached when it was thrown. -/
inductive Result (α σ : Type)
  | ok (a : α) (s : σ)
  | raised (e : Error) (s : σ)
  deriving DecidableEq, Repr

/-- The state a call ends in, whether it returned or threw. -/
def Result.state {α σ : Type} : Result α σ → σ
  | .ok _ s => s
  | .raised _ s => s

/-! ## The operating system -/

/-- One system call of the trace, with the value it returned. -/
inductive Syscall
  | close (fd : Int) (rc : Int)
  | send (fd : Int) (data : List Char) (rc : Int)
  deriving DecidableEq, Repr

/-- The part of the operating system the server talks to. -/
structure Os where
  openFds : List Int
  calls : List Syscall
  deriving DecidableEq, Repr

/-- The system call `::close(fd)`: releases `fd` and returns `0` when `fd` is an
open descriptor, returns `-1` otherwise. -/
def Os.close (os : Os) (fd : Int) : Int × Os :=
  if fd ∈ os.openFds then
    (0, { openFds := os.openFds.filter (fun x => x != fd),
          calls := os.calls ++ [Syscall.close fd 0] })
  else
    (-1, { os with calls := os.calls ++ [Syscall.close fd (-1)] })

/-! ## Socket -/

/-- The class `Socket`: an owned descriptor, `-1` when unbound. -/
structure Socket where
  _fd : Int
  deriving DecidableEq, Repr

/-- `Socket::fd()`. -/
def Socket.fd (self : Socket) : Int := self._fd

/-- `Socket::close()`:
`if(_fd >= 0) { rc = ::close(_fd); if(rc == 0) _fd = -1; else throw ...; }`. -/
def Socket.close (self : Socket) (os : Os) : Result Unit (Socket × Os) :=
  if 0 ≤ self._fd then
    match os.close self._fd with
    | (rc, os1) =>
      if rc = 0 then .ok () ({ _fd := -1 }, os1)
      else .raised .closeFailed (self, os1)
  else .ok () (self, os)

/-- `Socket::~Socket()`: `try { close(); } catch(...) { }`.  Only the operating
system outlives the object. -/
def Socket.destroy (self : Socket) (os : Os) : Os :=
  (self.close os).state.2

/-- `Socket::send(string)`: `rc = ::send(_fd, data, size, 0)`; when `rc < 0` the
socket is closed and `send() has failed` is thrown (or `close has failed`, when
the close throws first).  `sendRc fd data` is the value `::send` returns. -/
def Socket.send (sendRc : Int → List Char → Int) (self : Socket) (os : Os)
    (string : List Char) : Result Unit (Socket × Os) :=
  let rc := sendRc self._fd string
  let os1 : Os := { os with calls := os.calls ++ [Syscall.send self._fd string rc] }
  if rc < 0 then
    match self.close os1 with
    | .ok _ st => .raised .sendFailed st
    | .raised e st => .raised e st
  else .ok () (self, os1)

/-! ## ChatServer -/

/-- A `struct pollfd`. -/
structure Pollfd where
  fd : Int
  events : Int
  revents : Int
  deriving DecidableEq, Repr

/-- The data members of `ChatServer` (the signal manager holds no data the
event loop reads). -/
structure ChatServer where
  _server : Socket
  _clients : List Socket
  _quit : Bool
  _pollfds : List Pollfd
  deriving DecidableEq, Repr

/-- The state the server code runs on: the object and the operating system. -/
abbrev World := ChatServer × Os

/-- The loop `for (Socket _client : _clients) { _client.close(); }` of
`ChatServer::quit`: every iteration closes a by-value COPY of the list element
and then destroys the copy; the elements of `_clients` are not written. -/
def ChatServer.closeCopies : List Socket → Os → Result Unit Os
  | [], os => .ok () os
  | c :: rest, os =>
    match c.close os with
    | .ok _ (copy, os1) => closeCopies rest (copy.destroy os1)
    | .raised e (copy, os1) => .raised e (copy.destroy os1)

/-- `ChatServer::quit()`. -/
def ChatServer.quit (self : ChatServer) (os : Os) : Result Unit World :=
  match self._server.close os with
  | .raised e (srv, os1) => .raised e ({ self with _server := srv }, os1)
  | .ok _ (srv, os1) =>
    match ChatServer.closeCopies self._clients os1 with
    | .raised e os2 => .raised e ({ self with _server := srv }, os2)
    | .ok _ os2 => .ok () ({ self with _server := srv, _quit := true }, os2)

/-- `ChatServer::cont()`: empty body. -/
def ChatServer.cont (self : ChatServer) (os : Os) : Result Unit World :=
  .ok () (self, os)

/-- `ChatServer::sendMsgToClient(Socket& client, std::string msg)`, as defined
in `chat.cc` (the declaration in `chat.h` takes the socket by value; the body
embedded here is the one of `chat.cc`).  `client` is a reference to the element
of `_clients` at position `k`, so what `client.send` writes to the socket is
written to the list element, and `client.fd()` in the two predicates of the
`catch` block is the descriptor AFTER the failed send.  `remove_if` unlinks every matching
element and then destroys them.  The flag returned is `true` when the `catch`
block ran, that is when the element `client` refers to was erased. -/
def ChatServer.sendMsgToClient (sendRc : Int → List Char → Int) (self : ChatServer)
    (os : Os) (k : Nat) (msg : List Char) : Bool × World :=
  match self._clients[k]? with
  | none => (false, (self, os))
  | some client =>
    match client.send sendRc os msg with
    | .ok _ (c1, os1) => (false, ({ self with _clients := self._clients.set k c1 }, os1))
    | .raised _ (c1, os1) =>
      let clients1 := self._clients.set k c1
      let pollfds1 := self._pollfds.filter (fun pfd => pfd.fd != c1.fd)
      let removed := clients1.filter (fun c => c.fd == c1.fd)
      let os2 := removed.foldl (fun o c => c.destroy o) os1
      (true, ({ self with _pollfds := pollfds1,
                          _clients := clients1.filter (fun c => c.fd != c1.fd) }, os2))

/-- How the range-for `for (auto& client : _clients) sendMsgToClient(client, input)`
ends: the iterator reached `end()`, or the element under the iterator was erased
from the list by `sendMsgToClient` at position `k`, after which incrementing
the iterator is undefined. -/
inductive Broadcast
  | finished (w : World)
  | invalidated (k : Nat) (w : World)
  deriving DecidableEq, Repr

/-- The range-for of the broadcast from position `k`, with `n` elements left
to visit. -/
def ChatServer.broadcastFrom (sendRc : Int → List Char → Int) (msg : List Char) :
    Nat → Nat → World → Broadcast
  | 0, _, w => .finished w
  | n + 1, k, w =>
    match ChatServer.sendMsgToClient sendRc w.1 w.2 k msg with
    | (true, w1) => .invalidated k w1
    | (false, w1) => broadcastFrom sendRc msg n (k + 1) w1

/-- The whole range-for: `for (auto& client : _clients) sendMsgToClient(client, input)`. -/
def ChatServer.broadcast (sendRc : Int → List Char → Int) (msg : List Char)
    (w : World) : Broadcast :=
  ChatServer.broadcastFrom sendRc msg w.1._clients.length 0 w

/-- What the operating system answers while one ready descriptor is serviced. -/
structure Input where
  /-- the value of `::accept` -/
  acceptRc : Int
  /-- the line `std::getline(std::cin, input)` reads, `none` when it fails -/
  line : Option (List Char)
  /-- the value of `::recv` -/
  bytesRead : Int

/-- How the body of the `for` loop over `_pollfds` ends for one index: normally,
with the value of `i` at the end of the body (before `++i`); with an exception
that leaves `run`; or in the undefined increment of an invalidated iterator. -/
inductive Step
  | next (i : Nat) (w : World)
  | raised (e : Error) (w : World)
  | undefined (w : World)
  deriving DecidableEq, Repr

/-- The accept branch: `client_fd = _server.accept(); _clients.emplace_back(client_fd);
_pollfds.push_back({client_fd, POLLIN, 0});`. -/
def ChatServer.onAccept (self : ChatServer) (os : Os) (i : Nat) (acceptRc : Int) : Step :=
  if acceptRc < 0 then .raised .acceptFailed (self, os)
  else
    .next i ({ self with _clients := self._clients ++ [{ _fd := acceptRc }],
                         _pollfds := self._pollfds ++ [{ fd := acceptRc, events := POLLIN, revents := 0 }] },
             { os with openFds := os.openFds ++ [acceptRc] })

/-- The control-input branch: a failed `getline` is skipped, the line `quit`
calls `quit()`, any other non-empty line gets `\r\n` appended and is broadcast. -/
def ChatServer.onStdin (sendRc : Int → List Char → Int) (self : ChatServer) (os : Os)
    (i : Nat) (line : Option (List Char)) : Step :=
  match line with
  | none => .next i (self, os)
  | some input =>
    if input = ['q', 'u', 'i', 't'] then
      match self.quit os with
      | .ok _ w => .next i w
      | .raised e w => .raised e w
    else if input ≠ [] then
      match ChatServer.broadcast sendRc (input ++ ['\r', '\n']) (self, os) with
      | .finished w => .next i w
      | .invalidated _ w => .undefined w
    else .next i (self, os)

/-- The value `_pollfds[i]` has right after `_pollfds.erase(_pollfds.begin() + i)`:
the element that followed the erased one, moved down into slot `i`; when the
erased element was the last one, slot `i` lies past the end of the vector and
still holds the erased element. -/
def readAfterErase (pollfds : List Pollfd) (i : Nat) : Option Pollfd :=
  match (pollfds.eraseIdx i)[i]? with
  | some pfd => some pfd
  | none => pollfds[i]?

/-- The loop `for (it = _clients.begin(); it != _clients.end(); ++it)
if (it->fd() == fd) { _clients.erase(it); break; }`: erases the first client
whose descriptor is `fd` and destroys it. -/
def eraseFirstClient (fd : Int) : List Socket → Os → List Socket × Os
  | [], os => ([], os)
  | c :: rest, os =>
    if c.fd = fd then (rest, c.destroy os)
    else
      match eraseFirstClient fd rest os with
      | (rest1, os1) => (c :: rest1, os1)

/-- Decrement of a `size_t`. -/
def decr (i : Nat) : Nat := (i + 2 ^ 64 - 1) % 2 ^ 64

/-- The client branch: `bytes_read = recv(_pollfds[i].fd, ...)`; when
`bytes_read <= 0` the descriptor is closed, its entry erased from `_pollfds`,
then the client whose descriptor equals `_pollfds[i].fd` (read AFTER the erase)
is erased from `_clients`, and `i` is decremented. -/
def ChatServer.onClient (self : ChatServer) (os : Os) (i : Nat) (fd : Int)
    (bytesRead : Int) : Step :=
  if bytesRead ≤ 0 then
    let os1 := (os.close fd).2
    let pollfds1 := self._pollfds.eraseIdx i
    match readAfterErase self._pollfds i with
    | none => .next (decr i) ({ self with _pollfds := pollfds1 }, os1)
    | some pfd =>
      match eraseFirstClient pfd.fd self._clients os1 with
      | (clients1, os2) =>
        .next (decr i) ({ self with _pollfds := pollfds1, _clients := clients1 }, os2)
  else .next i (self, os)

/-- The body of `for (size_t i = 0; i < _pollfds.size(); ++i)` in
`ChatServer::run` for one index `i`. -/
def ChatServer.body (sendRc : Int → List Char → Int) (inp : Input) (self : ChatServer)
    (os : Os) (i : Nat) : Step :=
  match self._pollfds[i]? with
  | none => .next i (self, os)
  | some pfd =>
    if pfd.revents % 2 = 1 then
      if pfd.fd = self._server.fd then self.onAccept os i inp.acceptRc
      else if pfd.fd = STDIN_FILENO then self.onStdin sendRc os i inp.line
      else self.onClient os i pfd.fd inp.bytesRead
    else .next i (self, os)

/-! ## SignalManager -/

/-- A `struct timespec`. -/
structure Timespec where
  tv_sec : Nat
  tv_nsec : Nat
  deriving DecidableEq, Repr

/-- The class `SignalListener` over a state `σ`: one callback per signal kind. -/
structure SignalListener (σ : Type) where
  onSigHgup : σ → Result Unit σ
  onSigIntr : σ → Result Unit σ
  onSigTerm : σ → Result Unit σ
  onSigPipe : σ → Result Unit σ
  onSigChld : σ → Result Unit σ
  onSigAlrm : σ → Result Unit σ
  onSigUsr1 : σ → Result Unit σ
  onSigUsr2 : σ → Result Unit σ

/-- The `switch(rc)` of `SignalManager::timedwait`. -/
def SignalManager.dispatch {σ : Type} (listener : SignalListener σ) (rc : Int) (s : σ) :
    Result Unit σ :=
  if rc = SIGHUP then listener.onSigHgup s
  else if rc = SIGINT then listener.onSigIntr s
  else if rc = SIGTERM then listener.onSigTerm s
  else if rc = SIGPIPE then listener.onSigPipe s
  else if rc = SIGCHLD then listener.onSigChld s
  else if rc = SIGALRM then listener.onSigAlrm s
  else if rc = SIGUSR1 then listener.onSigUsr1 s
  else if rc = SIGUSR2 then listener.onSigUsr2 s
  else .ok () s

/-- The `timespec` built from the timeout:
`ts.tv_sec = (timeout / 1000UL) * 1UL; ts.tv_nsec = (timeout % 1000UL) * 1000UL;`
(`unsigned long` arithmetic, 64 bits). -/
def SignalManager.timespec (timeout : Nat) : Timespec :=
  { tv_sec := ((timeout / 1000) * 1) % 2 ^ 64,
    tv_nsec := ((timeout % 1000) * 1000) % 2 ^ 64 }

/-- `SignalManager::timedwait(timeout)`.  `sigtimedwait ts` is what the system
call answers: its return value and, when that is negative, `errno`. -/
def SignalManager.timedwait {σ : Type} (listener : SignalListener σ)
    (sigtimedwait : Timespec → Int × Int) (timeout : Nat) (s : σ) : Result Bool σ :=
  match sigtimedwait (SignalManager.timespec timeout) with
  | (rc, errno) =>
    if rc < 0 then
      if errno = EAGAIN then .ok false s
      else if errno = EINTR then .ok false s
      else .raised .sigtimedwaitFailed s
    else
      match SignalManager.dispatch listener rc s with
      | .ok _ s1 => .ok true s1
      | .raised e s1 => .raised e s1

/-- `SignalListener`, the base class: every callback has an empty body. -/
def SignalListener.base (σ : Type) : SignalListener σ :=
  { onSigHgup := fun s => .ok () s, onSigIntr := fun s => .ok () s,
    onSigTerm := fun s => .ok () s, onSigPipe := fun s => .ok () s,
    onSigChld := fun s => .ok () s, onSigAlrm := fun s => .ok () s,
    onSigUsr1 := fun s => .ok () s, onSigUsr2 := fun s => .ok () s }

/-- The overrides of `ChatServer`: hangup, interrupt, terminate, broken pipe and
child-exited call `quit()`; alarm and the two user signals call `cont()`. -/
def ChatServer.listener : SignalListener World :=
  { onSigHgup := fun w => w.1.quit w.2, onSigIntr := fun w => w.1.quit w.2,
    onSigTerm := fun w => w.1.quit w.2, onSigPipe := fun w => w.1.quit w.2,
    onSigChld := fun w => w.1.quit w.2, onSigAlrm := fun w => w.1.cont w.2,
    onSigUsr1 := fun w => w.1.cont w.2, onSigUsr2 := fun w => w.1.cont w.2 }

/-- The names of the eight callbacks. -/
inductive Callback
  | onSigHgup | onSigIntr | onSigTerm | onSigPipe
  | onSigChld | onSigAlrm | onSigUsr1 | onSigUsr2
  deriving DecidableEq, Repr

/-- The signal number of each kind and the callback the `switch` pairs it with. -/
def Callback.signum : Callback → Int
  | .onSigHgup => SIGHUP | .onSigIntr => SIGINT | .onSigTerm => SIGTERM
  | .onSigPipe => SIGPIPE | .onSigChld => SIGCHLD | .onSigAlrm => SIGALRM
  | .onSigUsr1 => SIGUSR1 | .onSigUsr2 => SIGUSR2

/-- The callback of a listener named by `cb`. -/
def SignalListener.call {σ : Type} (listener : SignalListener σ) : Callback → σ → Result Unit σ
  | .onSigHgup => listener.onSigHgup | .onSigIntr => listener.onSigIntr
  | .onSigTerm => listener.onSigTerm | .onSigPipe => listener.onSigPipe
  | .onSigChld => listener.onSigChld | .onSigAlrm => listener.onSigAlrm
  | .onSigUsr1 => listener.onSigUsr1 | .onSigUsr2 => listener.onSigUsr2

/-! ## Event sequences -/

/-- The two registry events of the loop: the listening socket is ready and
`::accept` returns `client_fd`; the client descriptor at index `i` of the poll
list is ready and `::recv` returns `0`. -/
inductive Event
  | accept (client_fd : Int)
  | disconnect (i : Nat)
  deriving DecidableEq, Repr

/-- The state a loop body ends in. -/
def Step.world : Step → World
  | .next _ w => w
  | .raised _ w => w
  | .undefined w => w

/-- The loop body run on one registry event. -/
def ChatServer.handle (w : World) : Event → World
  | .accept client_fd => (w.1.onAccept w.2 0 client_fd).world
  | .disconnect i =>
    match w.1._pollfds[i]? with
    | none => w
    | some pfd => (w.1.onClient w.2 i pfd.fd 0).world

/-- The state of `run` when the loop is entered: the listening socket `fd` and
the control input are the only poll entries, there is no client. -/
def ChatServer.initial (fd : Int) : World :=
  ({ _server := { _fd := fd }, _clients := [], _quit := false,
     _pollfds := [{ fd := fd, events := POLLIN, revents := 0 },
                  { fd := STDIN_FILENO, events := POLLIN, revents := 0 }] },
   { openFds := [STDIN_FILENO, fd], calls := [] })

/-- The registry invariant: without its two leading entries the poll list
carries, position by position, the descriptors of the client list. -/
def ChatServer.aligned (self : ChatServer) : Prop :=
  (self._pollfds.drop 2).map (fun pfd => pfd.fd) = self._clients.map (fun c => c.fd)

instance (self : ChatServer) : Decidable self.aligned := by
  unfold ChatServer.aligned; infer_instance

/-- The descriptors `quit` hands to `::close`: the bound ones among the
listening socket and the clients, in that order. -/
def ChatServer.boundFds (self : ChatServer) : List Int :=
  ((self._server :: self._clients).map Socket.fd).filter (fun x => decide (0 ≤ x))

/-- Every descriptor `quit` hands to `::close` is open, and none is held by two
sockets of the server. -/
def ChatServer.closable (self : ChatServer) (os : Os) : Prop :=
  self.boundFds.Nodup ∧ ∀ x ∈ self.boundFds, x ∈ os.openFds


/-! ## The dispatch cycle -/

/-- One evaluation of the loop body: the value of `i`, the entry `_pollfds[i]`
examined, and whether the body erased an entry and decremented `i`. -/
structure Visit where
  index : Nat
  entry : Pollfd
  removed : Bool
  deriving DecidableEq, Repr

/-- How one run of `for (size_t i = 0; i < _pollfds.size(); ++i)` ends: the
condition became false; an exception left the loop; the body reached undefined
behaviour; or the fuel of the model was used up.  The visits are the loop
bodies evaluated, in order. -/
inductive Cycle
  | done (visits : List Visit) (w : World)
  | raised (e : Error) (visits : List Visit) (w : World)
  | undefined (visits : List Visit) (w : World)
  | outOfFuel
  deriving DecidableEq, Repr

/-- Puts one more visit in front of the visits of a run. -/
def Cycle.visit (v : Visit) : Cycle → Cycle
  | .done vs w => .done (v :: vs) w
  | .raised e vs w => .raised e (v :: vs) w
  | .undefined vs w => .undefined (v :: vs) w
  | .outOfFuel => .outOfFuel

/-- The loop `for (size_t i = 0; i < _pollfds.size(); ++i) { body }` of
`ChatServer::run`, entered with the value `i`: the condition `i < size()` is
tested, the body runs, then `++i` (a `size_t`).  `inputs step` is what the
operating system answers during the body number `step`. -/
def ChatServer.cycleFrom (sendRc : Int → List Char → Int) (inputs : Nat → Input) :
    Nat → Nat → Nat → World → Cycle
  | 0, _, _, _ => .outOfFuel
  | fuel + 1, step, i, w =>
    match w.1._pollfds[i]? with
    | none => .done [] w
    | some pfd =>
      match ChatServer.body sendRc (inputs step) w.1 w.2 i with
      | .next i1 w1 =>
        (cycleFrom sendRc inputs fuel (step + 1) ((i1 + 1) % 2 ^ 64) w1).visit
          { index := i, entry := pfd, removed := i1 != i }
      | .raised e w1 => .raised e [{ index := i, entry := pfd, removed := false }] w1
      | .undefined w1 => .undefined [{ index := i, entry := pfd, removed := false }] w1

/-- One dispatch cycle over the poll list, from `i = 0`. -/
def ChatServer.cycle (sendRc : Int → List Char → Int) (inputs : Nat → Input)
    (w : World) : Cycle :=
  ChatServer.cycleFrom sendRc inputs (2 * w.1._pollfds.length + 1) 0 0 w

/-- The state a broadcast ends in. -/
def Broadcast.world : Broadcast → World
  | .finished w => w
  | .invalidated _ w => w

theorem Socket.close_unbound (os : Os) : Socket.close { _fd := -1 } os = .ok () ({ _fd := -1 }, os) := by
  simp [Socket.close]

theorem Socket.destroy_unbound (os : Os) : Socket.destroy { _fd := -1 } os = os := by
  simp [Socket.destroy, Socket.close_unbound, Result.state]

theorem Socket.close_neg (c : Socket) (os : Os) (h : c.fd < 0) : c.close os = .ok () (c, os) := by
  have h1 : ¬ (0 ≤ c._fd) := by simpa [Socket.fd] using h
  simp [Socket.close, h1]

theorem Socket.close_open (c : Socket) (os : Os) (h0 : 0 ≤ c.fd) (h : c.fd ∈ os.openFds) :
    c.close os = .ok () ({ _fd := -1 },
      { openFds := os.openFds.filter (fun x => x != c.fd),
        calls := os.calls ++ [Syscall.close c.fd 0] }) := by
  have h1 : 0 ≤ c._fd := h0
  have h2 : c._fd ∈ os.openFds := h
  simp [Socket.close, Os.close, h1, h2, Socket.fd]

theorem Socket.close_notOpen (c : Socket) (os : Os) (h0 : 0 ≤ c.fd) (h : c.fd ∉ os.openFds) :
    c.close os = .raised .closeFailed (c,
      { os with calls := os.calls ++ [Syscall.close c.fd (-1)] }) := by
  have h1 : 0 ≤ c._fd := h0
  have h2 : c._fd ∉ os.openFds := h
  simp [Socket.close, Os.close, h1, h2, Socket.fd]

theorem Socket.destroy_neg (c : Socket) (os : Os) (h : c.fd < 0) : c.destroy os = os := by
  simp [Socket.destroy, Socket.close_neg c os h, Result.state]

theorem closeCopies_cons_open (c : Socket) (rest : List Socket) (os : Os)
    (h0 : 0 ≤ c.fd) (h : c.fd ∈ os.openFds) :
    ChatServer.closeCopies (c :: rest) os =
      ChatServer.closeCopies rest
        { openFds := os.openFds.filter (fun x => x != c.fd),
          calls := os.calls ++ [Syscall.close c.fd 0] } := by
  simp [ChatServer.closeCopies, Socket.close_open c os h0 h, Socket.destroy_unbound]

theorem closeCopies_cons_neg (c : Socket) (rest : List Socket) (os : Os) (h : c.fd < 0) :
    ChatServer.closeCopies (c :: rest) os = ChatServer.closeCopies rest os := by
  simp [ChatServer.closeCopies, Socket.close_neg c os h, Socket.destroy_neg c os h]

theorem closeCopies_cons_notOpen (c : Socket) (rest : List Socket) (os : Os)
    (h0 : 0 ≤ c.fd) (h : c.fd ∉ os.openFds) :
    ∃ os1, ChatServer.closeCopies (c :: rest) os = .raised .closeFailed os1 := by
  simp [ChatServer.closeCopies, Socket.close_notOpen c os h0 h]

/-- When the copy loop of `quit` returns, it has opened nothing and every bound
descriptor of the list is no longer open. -/
theorem closeCopies_sound (cs : List Socket) : ∀ (os os1 : Os),
    ChatServer.closeCopies cs os = .ok () os1 →
      (∀ x ∈ os1.openFds, x ∈ os.openFds) ∧
      (∀ c ∈ cs, 0 ≤ c.fd → c.fd ∉ os1.openFds) := by
  induction cs with
  | nil =>
    intro os os1 h
    simp [ChatServer.closeCopies] at h
    subst h
    simp
  | cons c rest ih =>
    intro os os1 h
    by_cases h0 : 0 ≤ c.fd
    · by_cases hop : c.fd ∈ os.openFds
      · rw [closeCopies_cons_open c rest os h0 hop] at h
        obtain ⟨hsub, hcl⟩ := ih _ _ h
        have hsub1 : ∀ x ∈ os1.openFds, x ∈ os.openFds ∧ x ≠ c.fd := by
          intro x hx
          have := hsub x hx
          simpa using this
        refine ⟨fun x hx => (hsub1 x hx).1, ?_⟩
        intro d hd hd0
        rcases List.mem_cons.mp hd with hdc | hdr
        · subst hdc
          intro hmem
          exact (hsub1 _ hmem).2 rfl
        · exact hcl d hdr hd0
      · obtain ⟨os2, h2⟩ := closeCopies_cons_notOpen c rest os h0 hop
        rw [h2] at h
        cases h
    · have hneg : c.fd < 0 := lt_of_not_ge h0
      rw [closeCopies_cons_neg c rest os hneg] at h
      obtain ⟨hsub, hcl⟩ := ih _ _ h
      refine ⟨hsub, ?_⟩
      intro d hd hd0
      rcases List.mem_cons.mp hd with hdc | hdr
      · subst hdc
        exact absurd hd0 h0
      · exact hcl d hdr hd0

/-- The copy loop of `quit` returns when the bound descriptors of the list are
pairwise distinct and open. -/
theorem closeCopies_complete (cs : List Socket) : ∀ (os : Os),
    ((cs.map Socket.fd).filter (fun x => decide (0 ≤ x))).Nodup →
    (∀ c ∈ cs, 0 ≤ c.fd → c.fd ∈ os.openFds) →
    ∃ os1, ChatServer.closeCopies cs os = .ok () os1 := by
  induction cs with
  | nil =>
    intro os _ _
    exact ⟨os, rfl⟩
  | cons c rest ih =>
    intro os hnd hopen
    by_cases h0 : 0 ≤ c.fd
    · have hop : c.fd ∈ os.openFds := hopen c (List.mem_cons_self _ _) h0
      rw [closeCopies_cons_open c rest os h0 hop]
      have hnd1 : (c.fd :: (rest.map Socket.fd).filter (fun x => decide (0 ≤ x))).Nodup := by
        simpa [List.filter_cons, h0] using hnd
      obtain ⟨hnot, hnd2⟩ := List.nodup_cons.mp hnd1
      apply ih _ hnd2
      intro d hd hd0
      have hne : d.fd ≠ c.fd := by
        intro heq
        apply hnot
        rw [← heq]
        exact List.mem_filter.mpr ⟨List.mem_map.mpr ⟨d, hd, rfl⟩, by simpa using hd0⟩
      have := hopen d (List.mem_cons_of_mem _ hd) hd0
      simp [this, hne]
    · have hneg : c.fd < 0 := lt_of_not_ge h0
      rw [closeCopies_cons_neg c rest os hneg]
      have hnd1 : ((rest.map Socket.fd).filter (fun x => decide (0 ≤ x))).Nodup := by
        simpa [List.filter_cons, h0] using hnd
      apply ih _ hnd1
      intro d hd hd0
      exact hopen d (List.mem_cons_of_mem _ hd) hd0

/-- What `quit` has done when it returns. -/
theorem quit_sound (self : ChatServer) (os : Os) (w : World)
    (h : self.quit os = .ok () w) :
    w.1._quit = true ∧ (-1 ≤ self._server.fd → w.1._server.fd = -1) ∧
    w.1._clients = self._clients ∧ w.1._pollfds = self._pollfds ∧
    (∀ x ∈ w.2.openFds, x ∈ os.openFds) ∧
    (∀ c ∈ self._clients, 0 ≤ c.fd → c.fd ∉ w.2.openFds) := by
  unfold ChatServer.quit at h
  by_cases h0 : 0 ≤ self._server.fd
  · by_cases hop : self._server.fd ∈ os.openFds
    · rw [Socket.close_open _ os h0 hop] at h
      simp only at h
      split at h
      · cases h
      · rename_i os2 hcc
        cases h
        obtain ⟨hsub, hcl⟩ := closeCopies_sound _ _ _ hcc
        refine ⟨rfl, fun _ => rfl, rfl, rfl, ?_, hcl⟩
        intro x hx
        have := hsub x hx
        simp at this
        exact this.1
    · rw [Socket.close_notOpen _ os h0 hop] at h
      cases h
  · have hneg : self._server.fd < 0 := lt_of_not_ge h0
    rw [Socket.close_neg _ os hneg] at h
    simp only at h
    split at h
    · cases h
    · rename_i os2 hcc
      cases h
      obtain ⟨hsub, hcl⟩ := closeCopies_sound _ _ _ hcc
      refine ⟨rfl, ?_, rfl, rfl, hsub, hcl⟩
      intro hge
      have : self._server.fd = -1 := by omega
      simpa [Socket.fd] using this

/-- The transition `quit` returns when every descriptor it closes is open and
held once. -/
theorem quit_complete (self : ChatServer) (os : Os) (h : self.closable os) :
    ∃ w, self.quit os = .ok () w := by
  obtain ⟨hnd, hopen⟩ := h
  unfold ChatServer.boundFds at hnd hopen
  unfold ChatServer.quit
  by_cases h0 : 0 ≤ self._server.fd
  · have hnd1 : (self._server.fd ::
        (self._clients.map Socket.fd).filter (fun x => decide (0 ≤ x))).Nodup := by
      simpa [List.filter_cons, h0] using hnd
    obtain ⟨hnot, hnd2⟩ := List.nodup_cons.mp hnd1
    have hop : self._server.fd ∈ os.openFds := by
      apply hopen
      simp [List.filter_cons, h0]
    rw [Socket.close_open _ os h0 hop]
    have hc := closeCopies_complete self._clients
      { openFds := os.openFds.filter (fun x => x != self._server.fd),
        calls := os.calls ++ [Syscall.close self._server.fd 0] } hnd2 (by
        intro d hd hd0
        have hmem : d.fd ∈ (self._clients.map Socket.fd).filter (fun x => decide (0 ≤ x)) :=
          List.mem_filter.mpr ⟨List.mem_map.mpr ⟨d, hd, rfl⟩, by simpa using hd0⟩
        have hne : d.fd ≠ self._server.fd := by
          intro heq
          exact hnot (heq ▸ hmem)
        have : d.fd ∈ os.openFds := by
          apply hopen
          simp only [List.map_cons, List.filter_cons]
          split
          · exact List.mem_cons_of_mem _ hmem
          · exact hmem
        simp [this, hne])
    obtain ⟨os2, hos2⟩ := hc
    simp only [hos2]
    exact ⟨_, rfl⟩
  · have hneg : self._server.fd < 0 := lt_of_not_ge h0
    rw [Socket.close_neg _ os hneg]
    have hnd1 : ((self._clients.map Socket.fd).filter (fun x => decide (0 ≤ x))).Nodup := by
      simpa [List.filter_cons, h0] using hnd
    have hc := closeCopies_complete self._clients os hnd1 (by
        intro d hd hd0
        have hmem : d.fd ∈ (self._clients.map Socket.fd).filter (fun x => decide (0 ≤ x)) :=
          List.mem_filter.mpr ⟨List.mem_map.mpr ⟨d, hd, rfl⟩, by simpa using hd0⟩
        apply hopen
        simp only [List.map_cons, List.filter_cons]
        split
        · exact List.mem_cons_of_mem _ hmem
        · exact hmem)
    obtain ⟨os2, hos2⟩ := hc
    simp only [hos2]
    exact ⟨_, rfl⟩

theorem set_of_getElem? {α : Type} (l : List α) : ∀ (k : Nat) (c : α),
    l[k]? = some c → l.set k c = l := by
  induction l with
  | nil => intro k c h; simp at h
  | cons a rest ih =>
    intro k c h
    cases k with
    | zero =>
      simp at h
      simp [h]
    | succ k =>
      simp at h
      simp [ih k c h]

/-- A send the system accepts leaves the server as it was and adds one call to
the trace. -/
theorem sendMsgToClient_ok (sendRc : Int → List Char → Int) (self : ChatServer) (os : Os)
    (k : Nat) (msg : List Char) (c : Socket) (hk : self._clients[k]? = some c)
    (hrc : 0 ≤ sendRc c.fd msg) :
    ChatServer.sendMsgToClient sendRc self os k msg =
      (false, (self, { os with calls := os.calls ++ [Syscall.send c.fd msg (sendRc c.fd msg)] })) := by
  have h1 : ¬ (sendRc c._fd msg < 0) := not_lt.mpr hrc
  simp [ChatServer.sendMsgToClient, hk, Socket.send, h1, set_of_getElem? _ k c hk, Socket.fd]

/-- When the system accepts every send, the range-for visits the clients from
position `k` on, in order, and changes nothing but the trace. -/
theorem broadcastFrom_ok (sendRc : Int → List Char → Int) (msg : List Char)
    (self : ChatServer) (hall : ∀ c ∈ self._clients, 0 ≤ sendRc c.fd msg) :
    ∀ (n k : Nat) (os : Os), n + k = self._clients.length →
      ChatServer.broadcastFrom sendRc msg n k (self, os) =
        .finished (self, { os with calls := os.calls ++
          (self._clients.drop k).map (fun c => Syscall.send c.fd msg (sendRc c.fd msg)) }) := by
  intro n
  induction n with
  | zero =>
    intro k os hk
    have : self._clients.drop k = [] := by
      apply List.drop_eq_nil_of_le
      omega
    simp [ChatServer.broadcastFrom, this]
  | succ n ih =>
    intro k os hk
    have hlt : k < self._clients.length := by omega
    have hget : self._clients[k]? = some self._clients[k] := List.getElem?_eq_getElem hlt
    have hmem : self._clients[k] ∈ self._clients := List.getElem_mem hlt
    have hstep := sendMsgToClient_ok sendRc self os k msg _ hget (hall _ hmem)
    simp only [ChatServer.broadcastFrom, hstep]
    rw [ih (k + 1) _ (by omega)]
    rw [List.drop_eq_getElem_cons hlt, List.map_cons, List.append_assoc]
    rfl

/-- With a signal of kind `cb` collected, `timedwait` runs the callback paired
with `cb` and nothing else. -/
theorem timedwait_signal {σ : Type} (listener : SignalListener σ)
    (wait : Timespec → Int × Int) (timeout : Nat) (s : σ) (cb : Callback)
    (hsig : (wait (SignalManager.timespec timeout)).1 = cb.signum) :
    SignalManager.timedwait listener wait timeout s =
      match listener.call cb s with
      | .ok _ s1 => .ok true s1
      | .raised e s1 => .raised e s1 := by
  unfold SignalManager.timedwait
  rcases hw : wait (SignalManager.timespec timeout) with ⟨rc, errno⟩
  rw [hw] at hsig
  simp only at hsig
  subst hsig
  cases cb <;>
    simp [SignalManager.dispatch, SignalListener.call, Callback.signum, SIGHUP, SIGINT,
      SIGTERM, SIGPIPE, SIGCHLD, SIGALRM, SIGUSR1, SIGUSR2]

/-- A cycle run on a concrete state: the listening socket is ready and a client
7 is accepted, clients 4 and 5 are ready and both reads return 0.  The six
visits are at the indices 0, 1, 2, 2, 2, 3 and examine the entries of 3, 0, 4,
5, 6 and 7 in that order. -/
theorem cycle_two_removals :
    ChatServer.cycle (fun _ _ => 0) (fun _ => { acceptRc := 7, line := none, bytesRead := 0 })
        ({ _server := ⟨3⟩, _clients := [⟨4⟩, ⟨5⟩, ⟨6⟩], _quit := false,
           _pollfds := [⟨3, 1, 1⟩, ⟨0, 1, 0⟩, ⟨4, 1, 1⟩, ⟨5, 1, 1⟩, ⟨6, 1, 0⟩] },
         { openFds := [0, 3, 4, 5, 6], calls := [] }) =
      .done
        [⟨0, ⟨3, 1, 1⟩, false⟩, ⟨1, ⟨0, 1, 0⟩, false⟩, ⟨2, ⟨4, 1, 1⟩, true⟩,
         ⟨2, ⟨5, 1, 1⟩, true⟩, ⟨2, ⟨6, 1, 0⟩, false⟩, ⟨3, ⟨7, 1, 0⟩, false⟩]
        ({ _server := ⟨3⟩, _clients := [⟨4⟩, ⟨7⟩], _quit := false,
           _pollfds := [⟨3, 1, 1⟩, ⟨0, 1, 0⟩, ⟨6, 1, 0⟩, ⟨7, 1, 0⟩] },
         { openFds := [0, 3, 7],
           calls := [.close 4 0, .close 5 0, .close 5 (-1), .close 6 0] }) := by
  decide

/-- When `quit` throws, the shutdown flag is what it was. -/
theorem quit_raised_flag (self : ChatServer) (os : Os) (e : Error) (w : World)
    (h : self.quit os = .raised e w) : w.1._quit = self._quit := by
  unfold ChatServer.quit at h
  rcases hcl : self._server.close os with ⟨u, srv, os1⟩ | ⟨e1, srv, os1⟩
  · rw [hcl] at h
    simp only at h
    rcases hcp : ChatServer.closeCopies self._clients os1 with ⟨u2, os2⟩ | ⟨e2, os2⟩
    · rw [hcp] at h
      cases h
    · rw [hcp] at h
      simp only [Result.raised.injEq] at h
      rw [← h.2]
  · rw [hcl] at h
    simp only [Result.raised.injEq] at h
    rw [← h.2]

/-! ## The claims -/

/-- C1 (defect of the code): two clients connect (descriptors 4 and 5), then
client 4 disconnects.  The disconnect branch erases the poll entry of 4 and
then erases the client whose descriptor is `_pollfds[i].fd` read after the
erase, which is client 5: the poll list is left with descriptor 5 and the client
list with client 4, so the two lists are no longer index-aligned. -/
theorem C1_disconnect_breaks_alignment :
    [Event.accept 4, Event.accept 5, Event.disconnect 2].foldl ChatServer.handle
        (ChatServer.initial 3) =
      ({ _server := ⟨3⟩, _clients := [⟨4⟩], _quit := false,
         _pollfds := [⟨3, 1, 0⟩, ⟨0, 1, 0⟩, ⟨5, 1, 0⟩] },
       { openFds := [0, 3], calls := [.close 4 0, .close 5 0] }) ∧
    ¬ ([Event.accept 4, Event.accept 5, Event.disconnect 2].foldl ChatServer.handle
        (ChatServer.initial 3)).1.aligned := by
  decide

/-- C2 (defect of the code): with clients 4, 5, 6 registered, a zero-length read
on descriptor 5 (poll index 3) erases client 6 from the client list, keeps
client 5, and closes descriptor 6 as well as descriptor 5. -/
theorem C2_disconnect_removes_next_client :
    ChatServer.body (fun _ _ => 0) { acceptRc := -1, line := none, bytesRead := 0 }
        { _server := ⟨3⟩, _clients := [⟨4⟩, ⟨5⟩, ⟨6⟩], _quit := false,
          _pollfds := [⟨3, 1, 0⟩, ⟨0, 1, 0⟩, ⟨4, 1, 0⟩, ⟨5, 1, 1⟩, ⟨6, 1, 0⟩] }
        { openFds := [0, 3, 4, 5, 6], calls := [] } 3 =
      .next 2
        ({ _server := ⟨3⟩, _clients := [⟨4⟩, ⟨5⟩], _quit := false,
           _pollfds := [⟨3, 1, 0⟩, ⟨0, 1, 0⟩, ⟨4, 1, 0⟩, ⟨6, 1, 0⟩] },
         { openFds := [0, 3, 4], calls := [.close 5 0, .close 6 0] }) := by
  decide

/-- C3: when the entry at index `i` of the poll list is a ready client
descriptor and its read returns zero bytes (or an error), the loop body returns
with the poll list equal to the previous one with the entry at index `i`
erased: one entry fewer, the entries before `i` in place, the entries after `i`
moved down by one, in the same order. -/
theorem C3_disconnect_erases_poll_entry (sendRc : Int → List Char → Int) (inp : Input)
    (self : ChatServer) (os : Os) (i : Nat) (pfd : Pollfd)
    (hi : self._pollfds[i]? = some pfd) (hready : pfd.revents % 2 = 1)
    (hsrv : pfd.fd ≠ self._server.fd) (hin : pfd.fd ≠ STDIN_FILENO)
    (hread : inp.bytesRead ≤ 0) :
    ∃ w, ChatServer.body sendRc inp self os i = .next (decr i) w ∧
      w.1._pollfds = self._pollfds.eraseIdx i ∧
      w.1._pollfds.length + 1 = self._pollfds.length ∧
      (∀ j, j < i → w.1._pollfds[j]? = self._pollfds[j]?) ∧
      (∀ j, i ≤ j → w.1._pollfds[j]? = self._pollfds[j + 1]?) := by
  have hlt : i < self._pollfds.length := (List.getElem?_eq_some.mp hi).1
  have hlen : (self._pollfds.eraseIdx i).length + 1 = self._pollfds.length := by
    rw [List.length_eraseIdx_of_lt hlt]
    omega
  have hbody : ChatServer.body sendRc inp self os i =
      self.onClient os i pfd.fd inp.bytesRead := by
    simp [ChatServer.body, hi, hready, hsrv, hin]
  rw [hbody]
  unfold ChatServer.onClient
  simp only [hread, if_true]
  split
  · exact ⟨_, rfl, rfl, hlen, fun j hj => List.getElem?_eraseIdx_of_lt _ i j hj,
      fun j hj => List.getElem?_eraseIdx_of_ge _ i j hj⟩
  · exact ⟨_, rfl, rfl, hlen, fun j hj => List.getElem?_eraseIdx_of_lt _ i j hj,
      fun j hj => List.getElem?_eraseIdx_of_ge _ i j hj⟩

/-- Witness of C3: clients 4 and 5, the read on descriptor 4 (index 2) returns 0. -/
theorem C3_disconnect_erases_poll_entry_witness :
    ∃ w, ChatServer.body (fun _ _ => 0) { acceptRc := -1, line := none, bytesRead := 0 }
        { _server := ⟨3⟩, _clients := [⟨4⟩, ⟨5⟩], _quit := false,
          _pollfds := [⟨3, 1, 0⟩, ⟨0, 1, 0⟩, ⟨4, 1, 1⟩, ⟨5, 1, 0⟩] }
        { openFds := [0, 3, 4, 5], calls := [] } 2 = .next (decr 2) w ∧
      w.1._pollfds = ([⟨3, 1, 0⟩, ⟨0, 1, 0⟩, ⟨4, 1, 1⟩, ⟨5, 1, 0⟩] : List Pollfd).eraseIdx 2 ∧
      w.1._pollfds.length + 1 = ([⟨3, 1, 0⟩, ⟨0, 1, 0⟩, ⟨4, 1, 1⟩, ⟨5, 1, 0⟩] : List Pollfd).length ∧
      (∀ j, j < 2 → w.1._pollfds[j]? = ([⟨3, 1, 0⟩, ⟨0, 1, 0⟩, ⟨4, 1, 1⟩, ⟨5, 1, 0⟩] : List Pollfd)[j]?) ∧
      (∀ j, 2 ≤ j → w.1._pollfds[j]? = ([⟨3, 1, 0⟩, ⟨0, 1, 0⟩, ⟨4, 1, 1⟩, ⟨5, 1, 0⟩] : List Pollfd)[j + 1]?) :=
  C3_disconnect_erases_poll_entry (fun _ _ => 0) { acceptRc := -1, line := none, bytesRead := 0 }
    { _server := ⟨3⟩, _clients := [⟨4⟩, ⟨5⟩], _quit := false,
      _pollfds := [⟨3, 1, 0⟩, ⟨0, 1, 0⟩, ⟨4, 1, 1⟩, ⟨5, 1, 0⟩] }
    { openFds := [0, 3, 4, 5], calls := [] } 2 ⟨4, 1, 1⟩ rfl (by decide) (by decide) (by decide)
    (by decide)

/-- C4: for a control-input line `L` that is not empty and not `quit`, and a
registry whose clients all accept the whole payload, handling the line makes
exactly one `::send` per client, in insertion order, each carrying `L` followed
by `\r\n` in full, and leaves the server object (client list, poll list,
shutdown flag, listening socket) and the open descriptors unchanged. -/
theorem C4_control_line_is_broadcast (sendRc : Int → List Char → Int) (self : ChatServer)
    (os : Os) (i : Nat) (L : List Char) (hne : L ≠ []) (hq : L ≠ ['q', 'u', 'i', 't'])
    (hall : ∀ c ∈ self._clients,
      sendRc c.fd (L ++ ['\r', '\n']) = ((L ++ ['\r', '\n']).length : Int)) :
    ChatServer.onStdin sendRc self os i (some L) =
      .next i (self, { openFds := os.openFds,
                       calls := os.calls ++ self._clients.map (fun c =>
                         Syscall.send c.fd (L ++ ['\r', '\n']) ((L ++ ['\r', '\n']).length : Int)) }) := by
  have hall0 : ∀ c ∈ self._clients, 0 ≤ sendRc c.fd (L ++ ['\r', '\n']) := by
    intro c hc
    rw [hall c hc]
    exact Int.natCast_nonneg _
  have hb := broadcastFrom_ok sendRc (L ++ ['\r', '\n']) self hall0 self._clients.length 0 os rfl
  have hmap : self._clients.map (fun c =>
        Syscall.send c.fd (L ++ ['\r', '\n']) (sendRc c.fd (L ++ ['\r', '\n']))) =
      self._clients.map (fun c =>
        Syscall.send c.fd (L ++ ['\r', '\n']) ((L ++ ['\r', '\n']).length : Int)) := by
    apply List.map_congr_left
    intro c hc
    rw [hall c hc]
  simp only [ChatServer.onStdin, hq, hne, if_false, ne_eq, not_false_eq_true, if_true,
    ChatServer.broadcast, hb, List.drop_zero, hmap]

/-- Witness of C4: the line `hi` with clients 4 and 5. -/
theorem C4_control_line_is_broadcast_witness :
    ChatServer.onStdin (fun _ _ => 4)
        { _server := ⟨3⟩, _clients := [⟨4⟩, ⟨5⟩], _quit := false,
          _pollfds := [⟨3, 1, 0⟩, ⟨0, 1, 1⟩, ⟨4, 1, 0⟩, ⟨5, 1, 0⟩] }
        { openFds := [0, 3, 4, 5], calls := [] } 1 (some ['h', 'i']) =
      .next 1
        ({ _server := ⟨3⟩, _clients := [⟨4⟩, ⟨5⟩], _quit := false,
           _pollfds := [⟨3, 1, 0⟩, ⟨0, 1, 1⟩, ⟨4, 1, 0⟩, ⟨5, 1, 0⟩] },
         { openFds := [0, 3, 4, 5],
           calls := [] ++ ([⟨4⟩, ⟨5⟩] : List Socket).map (fun c =>
             Syscall.send c.fd (['h', 'i'] ++ ['\r', '\n'])
               (((['h', 'i'] ++ ['\r', '\n'] : List Char).length : Nat) : Int)) }) :=
  C4_control_line_is_broadcast (fun _ _ => 4)
    { _server := ⟨3⟩, _clients := [⟨4⟩, ⟨5⟩], _quit := false,
      _pollfds := [⟨3, 1, 0⟩, ⟨0, 1, 1⟩, ⟨4, 1, 0⟩, ⟨5, 1, 0⟩] }
    { openFds := [0, 3, 4, 5], calls := [] } 1 ['h', 'i'] (by decide) (by decide) (by decide)

/-- C5 (defect of the code): clients 4 and 5 are registered and the send to
client 5 fails.  `Socket::send` closes the socket, which resets its descriptor
to -1, before `sendMsgToClient` looks for `client.fd()` in the poll list: the
client is closed and erased from the client list, but the poll entry of
descriptor 5 is still there, and the two lists no longer correspond. -/
theorem C5_failed_send_keeps_poll_entry :
    ChatServer.sendMsgToClient (fun fd _ => if fd = 5 then -1 else 4)
        { _server := ⟨3⟩, _clients := [⟨4⟩, ⟨5⟩], _quit := false,
          _pollfds := [⟨3, 1, 0⟩, ⟨0, 1, 1⟩, ⟨4, 1, 0⟩, ⟨5, 1, 0⟩] }
        { openFds := [0, 3, 4, 5], calls := [.send 4 ['h', 'i', '\r', '\n'] 4] }
        1 ['h', 'i', '\r', '\n'] =
      (true,
        ({ _server := ⟨3⟩, _clients := [⟨4⟩], _quit := false,
           _pollfds := [⟨3, 1, 0⟩, ⟨0, 1, 1⟩, ⟨4, 1, 0⟩, ⟨5, 1, 0⟩] },
         { openFds := [0, 3, 4],
           calls := [.send 4 ['h', 'i', '\r', '\n'] 4, .send 5 ['h', 'i', '\r', '\n'] (-1),
                     .close 5 0] })) := by
  decide

/-- C6 (defect of the code): clients 4 and 5 are registered and the send to
client 4 fails.  `sendMsgToClient` erases client 4 from `_clients` inside the
range-for over `_clients`, before any send to client 5 has been attempted; the
iterator of the loop is invalidated and client 5 is not sent the payload. -/
theorem C6_client_erased_during_iteration :
    ChatServer.broadcast (fun fd _ => if fd = 4 then -1 else 4) ['h', 'i', '\r', '\n']
        ({ _server := ⟨3⟩, _clients := [⟨4⟩, ⟨5⟩], _quit := false,
           _pollfds := [⟨3, 1, 0⟩, ⟨0, 1, 1⟩, ⟨4, 1, 0⟩, ⟨5, 1, 0⟩] },
         { openFds := [0, 3, 4, 5], calls := [] }) =
      .invalidated 0
        ({ _server := ⟨3⟩, _clients := [⟨5⟩], _quit := false,
           _pollfds := [⟨3, 1, 0⟩, ⟨0, 1, 1⟩, ⟨4, 1, 0⟩, ⟨5, 1, 0⟩] },
         { openFds := [0, 3, 5],
           calls := [.send 4 ['h', 'i', '\r', '\n'] (-1), .close 4 0] }) := by
  decide

/-- C7, as stated, fails: with the listening socket 3 and one client 4, `quit`
returns with the client still in the client collection and its descriptor
still 4, so not every state ends with an empty collection of unbound clients. -/
theorem C7_quit_keeps_client_list :
    ChatServer.quit
        { _server := ⟨3⟩, _clients := [⟨4⟩], _quit := false,
          _pollfds := [⟨3, 1, 0⟩, ⟨0, 1, 0⟩, ⟨4, 1, 0⟩] }
        { openFds := [0, 3, 4], calls := [] } =
      .ok ()
        ({ _server := ⟨-1⟩, _clients := [⟨4⟩], _quit := true,
           _pollfds := [⟨3, 1, 0⟩, ⟨0, 1, 0⟩, ⟨4, 1, 0⟩] },
         { openFds := [0], calls := [.close 3 0, .close 4 0] }) ∧
    ¬ ∀ (self : ChatServer) (os : Os) (w : World), self.quit os = .ok () w →
        w.1._quit = true ∧ w.1._server.fd = -1 ∧
        (∀ c ∈ w.1._clients, c.fd ∉ w.2.openFds ∧ c.fd = -1) ∧ w.1._clients = [] := by
  refine ⟨by decide, ?_⟩
  intro h
  have h1 := h { _server := ⟨3⟩, _clients := [⟨4⟩], _quit := false,
                 _pollfds := [⟨3, 1, 0⟩, ⟨0, 1, 0⟩, ⟨4, 1, 0⟩] }
    { openFds := [0, 3, 4], calls := [] }
    ({ _server := ⟨-1⟩, _clients := [⟨4⟩], _quit := true,
       _pollfds := [⟨3, 1, 0⟩, ⟨0, 1, 0⟩, ⟨4, 1, 0⟩] },
     { openFds := [0], calls := [.close 3 0, .close 4 0] }) (by decide)
  exact absurd h1.2.2.2 (by decide)

/-- C7, amended: from every state whose listening descriptor is bound or -1 and
whose bound descriptors are open and held once, `quit` returns, and then the
shutdown flag is true, the listening descriptor is -1, every bound descriptor
of a client of the registry is no longer open, and the client collection has
the entries it had (it is not cleared). -/
theorem C7_quit_closes_everything (self : ChatServer) (os : Os)
    (hsrv : -1 ≤ self._server.fd) (hcl : self.closable os) :
    ∃ w, self.quit os = .ok () w ∧ w.1._quit = true ∧ w.1._server.fd = -1 ∧
      (∀ c ∈ self._clients, 0 ≤ c.fd → c.fd ∉ w.2.openFds) ∧
      w.1._clients.length = self._clients.length := by
  obtain ⟨w, hw⟩ := quit_complete self os hcl
  obtain ⟨hq, hs, hc, _, _, hclosed⟩ := quit_sound self os w hw
  exact ⟨w, hw, hq, hs hsrv, hclosed, by rw [hc]⟩

/-- Witness of C7 amended: listening socket 3, clients 4 and 5, all open. -/
theorem C7_quit_closes_everything_witness :
    ∃ w, ChatServer.quit
        { _server := ⟨3⟩, _clients := [⟨4⟩, ⟨5⟩], _quit := false,
          _pollfds := [⟨3, 1, 0⟩, ⟨0, 1, 0⟩, ⟨4, 1, 0⟩, ⟨5, 1, 0⟩] }
        { openFds := [0, 3, 4, 5], calls := [] } = .ok () w ∧
      w.1._quit = true ∧ w.1._server.fd = -1 ∧
      (∀ c ∈ ([⟨4⟩, ⟨5⟩] : List Socket), 0 ≤ c.fd → c.fd ∉ w.2.openFds) ∧
      w.1._clients.length = ([⟨4⟩, ⟨5⟩] : List Socket).length :=
  C7_quit_closes_everything
    { _server := ⟨3⟩, _clients := [⟨4⟩, ⟨5⟩], _quit := false,
      _pollfds := [⟨3, 1, 0⟩, ⟨0, 1, 0⟩, ⟨4, 1, 0⟩, ⟨5, 1, 0⟩] }
    { openFds := [0, 3, 4, 5], calls := [] } (by decide)
    ⟨by decide, by decide⟩

/-- C8 (defect of the code): with the listening socket 3 and one client 4, the
first `quit` returns; it closed descriptor 4 through a copy of the client, so
the client in the list still holds 4.  The second `quit` hands 4 to `::close`
again, the call fails and `quit` throws `close has failed`. -/
theorem C8_second_quit_throws :
    ChatServer.quit
        { _server := ⟨3⟩, _clients := [⟨4⟩], _quit := false,
          _pollfds := [⟨3, 1, 0⟩, ⟨0, 1, 0⟩, ⟨4, 1, 0⟩] }
        { openFds := [0, 3, 4], calls := [] } =
      .ok ()
        ({ _server := ⟨-1⟩, _clients := [⟨4⟩], _quit := true,
           _pollfds := [⟨3, 1, 0⟩, ⟨0, 1, 0⟩, ⟨4, 1, 0⟩] },
         { openFds := [0], calls := [.close 3 0, .close 4 0] }) ∧
    ChatServer.quit
        { _server := ⟨-1⟩, _clients := [⟨4⟩], _quit := true,
          _pollfds := [⟨3, 1, 0⟩, ⟨0, 1, 0⟩, ⟨4, 1, 0⟩] }
        { openFds := [0], calls := [.close 3 0, .close 4 0] } =
      .raised .closeFailed
        ({ _server := ⟨-1⟩, _clients := [⟨4⟩], _quit := true,
           _pollfds := [⟨3, 1, 0⟩, ⟨0, 1, 0⟩, ⟨4, 1, 0⟩] },
         { openFds := [0],
           calls := [.close 3 0, .close 4 0, .close 4 (-1), .close 4 (-1)] }) := by
  decide

/-- C9, as stated, fails: clients 4 and 5 connect and client 4 disconnects,
which leaves client 4, whose descriptor is closed, in the client list.  On the
state so reached each of the five shutdown signals makes `quit()` close the
listening socket and then throw `close has failed` on descriptor 4: the
exception leaves `timedwait` and the shutdown flag is still false. -/
theorem C9_shutdown_signal_throws_on_stale_client :
    SignalManager.timedwait ChatServer.listener (fun _ => (SIGTERM, 0)) 1000
        ([Event.accept 4, Event.accept 5, Event.disconnect 2].foldl ChatServer.handle
          (ChatServer.initial 3)) =
      .raised .closeFailed
        ({ _server := ⟨-1⟩, _clients := [⟨4⟩], _quit := false,
           _pollfds := [⟨3, 1, 0⟩, ⟨0, 1, 0⟩, ⟨5, 1, 0⟩] },
         { openFds := [0],
           calls := [.close 4 0, .close 5 0, .close 3 0, .close 4 (-1), .close 4 (-1)] }) ∧
    (SignalManager.timedwait ChatServer.listener (fun _ => (SIGHUP, 0)) 1000
        ([Event.accept 4, Event.accept 5, Event.disconnect 2].foldl ChatServer.handle
          (ChatServer.initial 3))).state.1._quit = false ∧
    (SignalManager.timedwait ChatServer.listener (fun _ => (SIGINT, 0)) 1000
        ([Event.accept 4, Event.accept 5, Event.disconnect 2].foldl ChatServer.handle
          (ChatServer.initial 3))).state.1._quit = false ∧
    (SignalManager.timedwait ChatServer.listener (fun _ => (SIGTERM, 0)) 1000
        ([Event.accept 4, Event.accept 5, Event.disconnect 2].foldl ChatServer.handle
          (ChatServer.initial 3))).state.1._quit = false ∧
    (SignalManager.timedwait ChatServer.listener (fun _ => (SIGPIPE, 0)) 1000
        ([Event.accept 4, Event.accept 5, Event.disconnect 2].foldl ChatServer.handle
          (ChatServer.initial 3))).state.1._quit = false ∧
    (SignalManager.timedwait ChatServer.listener (fun _ => (SIGCHLD, 0)) 1000
        ([Event.accept 4, Event.accept 5, Event.disconnect 2].foldl ChatServer.handle
          (ChatServer.initial 3))).state.1._quit = false := by
  decide

/-- C9, amended: a signal of kind `cb` is collected by `timedwait` and
delivered to `ChatServer`.  For hangup, interrupt, terminate, broken pipe and
child-exited the callback is `quit()`: when every descriptor `quit()` closes is
open and held once, `timedwait` returns `true` and the shutdown flag is true;
the flag is true whenever `timedwait` returns; and when `quit()` throws
instead, the flag is what it was.  For alarm, user signal 1 and user signal 2
`timedwait` returns `true` and the whole state (server object and operating
system) is what it was. -/
theorem C9_signals_and_shutdown_flag (wait : Timespec → Int × Int) (timeout : Nat)
    (w : World) (cb : Callback)
    (hsig : (wait (SignalManager.timespec timeout)).1 = cb.signum) :
    (cb ∈ [Callback.onSigHgup, .onSigIntr, .onSigTerm, .onSigPipe, .onSigChld] →
      (w.1.closable w.2 →
        ∃ w1, SignalManager.timedwait ChatServer.listener wait timeout w = .ok true w1 ∧
          w1.1._quit = true) ∧
      (∀ b w1, SignalManager.timedwait ChatServer.listener wait timeout w = .ok b w1 →
          w1.1._quit = true) ∧
      (∀ e w1, SignalManager.timedwait ChatServer.listener wait timeout w = .raised e w1 →
          w1.1._quit = w.1._quit)) ∧
    (cb ∈ [Callback.onSigAlrm, .onSigUsr1, .onSigUsr2] →
      SignalManager.timedwait ChatServer.listener wait timeout w = .ok true w) := by
  have htw := timedwait_signal ChatServer.listener wait timeout w cb hsig
  constructor
  · intro hcb
    have hcall : ChatServer.listener.call cb w = w.1.quit w.2 := by
      simp only [List.mem_cons, List.mem_singleton, List.not_mem_nil, or_false] at hcb
      rcases hcb with h | h | h | h | h <;> subst h <;> rfl
    rw [hcall] at htw
    refine ⟨?_, ?_, ?_⟩
    · intro hcl
      obtain ⟨w1, hw1⟩ := quit_complete w.1 w.2 hcl
      have hq := (quit_sound w.1 w.2 w1 hw1).1
      rw [hw1] at htw
      exact ⟨w1, htw, hq⟩
    · intro b w1 hret
      rw [htw] at hret
      rcases hquit : w.1.quit w.2 with ⟨u, w2⟩ | ⟨e, w2⟩
      · rw [hquit] at hret
        cases u
        have hq := (quit_sound w.1 w.2 w2 hquit).1
        simp only [Result.ok.injEq] at hret
        rw [← hret.2]
        exact hq
      · rw [hquit] at hret
        cases hret
    · intro e w1 hret
      rw [htw] at hret
      rcases hquit : w.1.quit w.2 with ⟨u, w2⟩ | ⟨e2, w2⟩
      · rw [hquit] at hret
        cases hret
      · rw [hquit] at hret
        simp only [Result.raised.injEq] at hret
        rw [← hret.2]
        exact quit_raised_flag w.1 w.2 e2 w2 hquit
  · intro hcb
    have hcall : ChatServer.listener.call cb w = .ok () w := by
      simp only [List.mem_cons, List.mem_singleton, List.not_mem_nil, or_false] at hcb
      rcases hcb with h | h | h <;> subst h <;> rfl
    rw [hcall] at htw
    exact htw

/-- Witness of C9 amended: SIGTERM, then SIGUSR1, delivered to a server with the
listening socket 3 and the client 4. -/
theorem C9_signals_and_shutdown_flag_witness :
    (∃ w1, SignalManager.timedwait ChatServer.listener (fun _ => (SIGTERM, 0)) 1000
        ({ _server := ⟨3⟩, _clients := [⟨4⟩], _quit := false,
           _pollfds := [⟨3, 1, 0⟩, ⟨0, 1, 0⟩, ⟨4, 1, 0⟩] },
         { openFds := [0, 3, 4], calls := [] }) = .ok true w1 ∧ w1.1._quit = true) ∧
    SignalManager.timedwait ChatServer.listener (fun _ => (SIGUSR1, 0)) 1000
        ({ _server := ⟨3⟩, _clients := [⟨4⟩], _quit := false,
           _pollfds := [⟨3, 1, 0⟩, ⟨0, 1, 0⟩, ⟨4, 1, 0⟩] },
         { openFds := [0, 3, 4], calls := [] }) =
      .ok true
        ({ _server := ⟨3⟩, _clients := [⟨4⟩], _quit := false,
           _pollfds := [⟨3, 1, 0⟩, ⟨0, 1, 0⟩, ⟨4, 1, 0⟩] },
         { openFds := [0, 3, 4], calls := [] }) :=
  ⟨((C9_signals_and_shutdown_flag (fun _ => (SIGTERM, 0)) 1000
        ({ _server := ⟨3⟩, _clients := [⟨4⟩], _quit := false,
           _pollfds := [⟨3, 1, 0⟩, ⟨0, 1, 0⟩, ⟨4, 1, 0⟩] },
         { openFds := [0, 3, 4], calls := [] }) .onSigTerm rfl).1 (by decide)).1
      ⟨by decide, by decide⟩,
   (C9_signals_and_shutdown_flag (fun _ => (SIGUSR1, 0)) 1000
        ({ _server := ⟨3⟩, _clients := [⟨4⟩], _quit := false,
           _pollfds := [⟨3, 1, 0⟩, ⟨0, 1, 0⟩, ⟨4, 1, 0⟩] },
         { openFds := [0, 3, 4], calls := [] }) .onSigUsr1 rfl).2 (by decide)⟩

/-- C11, as stated, fails: `::send` accepts 2 of the 4 bytes of the payload and
`Socket::send` returns normally, with the socket still bound and open. -/
theorem C11_partial_write_returns_normally :
    Socket.send (fun _ _ => 2) { _fd := 4 } { openFds := [0, 3, 4], calls := [] }
        ['h', 'i', '\r', '\n'] =
      .ok () ({ _fd := 4 },
        { openFds := [0, 3, 4], calls := [.send 4 ['h', 'i', '\r', '\n'] 2] }) ∧
    (2 : Int) < ((['h', 'i', '\r', '\n'] : List Char).length : Int) := by
  decide

/-- C11, amended: `Socket::send` makes one `::send` call with the whole payload.
When the call reports an error (a negative value) the operation throws, and
when the descriptor was bound and open it has been closed and set to -1 (the
exception is `send() has failed`).  When the call returns a non-negative value,
whatever the number of bytes accepted, `Socket::send` returns normally and the
socket and the open descriptors are unchanged. -/
theorem C11_send_fails_on_error_only (sendRc : Int → List Char → Int) (self : Socket)
    (os : Os) (data : List Char) :
    (sendRc self.fd data < 0 →
      ∃ e st, self.send sendRc os data = .raised e st ∧
        (0 ≤ self.fd → self.fd ∈ os.openFds →
          e = .sendFailed ∧ st.1.fd = -1 ∧ self.fd ∉ st.2.openFds)) ∧
    (0 ≤ sendRc self.fd data →
      self.send sendRc os data =
        .ok () (self, { openFds := os.openFds,
                        calls := os.calls ++ [Syscall.send self.fd data (sendRc self.fd data)] })) := by
  constructor
  · intro hneg
    have hneg1 : sendRc self._fd data < 0 := hneg
    by_cases h0 : 0 ≤ self.fd
    · by_cases hop : self.fd ∈ os.openFds
      · have hop1 : self.fd ∈
            ({ os with calls := os.calls ++ [Syscall.send self._fd data (sendRc self._fd data)] } : Os).openFds := hop
        have hs : self.send sendRc os data = .raised .sendFailed ({ _fd := -1 },
            { openFds := os.openFds.filter (fun x => x != self.fd),
              calls := (os.calls ++ [Syscall.send self._fd data (sendRc self._fd data)]) ++
                [Syscall.close self.fd 0] }) := by
          simp only [Socket.send, hneg1, if_true, Socket.close_open self _ h0 hop1]
        refine ⟨_, _, hs, fun _ _ => ⟨rfl, rfl, ?_⟩⟩
        simp
      · have hop1 : self.fd ∉
            ({ os with calls := os.calls ++ [Syscall.send self._fd data (sendRc self._fd data)] } : Os).openFds := hop
        have hs : self.send sendRc os data = .raised .closeFailed (self,
            { openFds := os.openFds,
              calls := (os.calls ++ [Syscall.send self._fd data (sendRc self._fd data)]) ++
                [Syscall.close self.fd (-1)] }) := by
          simp only [Socket.send, hneg1, if_true, Socket.close_notOpen self _ h0 hop1]
        exact ⟨_, _, hs, fun _ h => absurd h hop⟩
    · have hlt : self.fd < 0 := lt_of_not_ge h0
      have hs : self.send sendRc os data = .raised .sendFailed (self,
          { openFds := os.openFds,
            calls := os.calls ++ [Syscall.send self._fd data (sendRc self._fd data)] }) := by
        simp only [Socket.send, hneg1, if_true, Socket.close_neg self _ hlt]
      exact ⟨_, _, hs, fun h => absurd h h0⟩
  · intro hrc
    have h1 : ¬ (sendRc self._fd data < 0) := not_lt.mpr hrc
    simp [Socket.send, h1, Socket.fd]

/-- Witness of C11 amended: a failed send on the open descriptor 4, and a send
that accepts 2 bytes of 4. -/
theorem C11_send_fails_on_error_only_witness :
    (∃ e st, Socket.send (fun _ _ => -1) { _fd := 4 } { openFds := [0, 3, 4], calls := [] }
        ['h', 'i', '\r', '\n'] = .raised e st ∧
      (0 ≤ Socket.fd { _fd := 4 } → Socket.fd { _fd := 4 } ∈ ([0, 3, 4] : List Int) →
        e = .sendFailed ∧ st.1.fd = -1 ∧ Socket.fd { _fd := 4 } ∉ st.2.openFds)) ∧
    Socket.send (fun _ _ => 2) { _fd := 4 } { openFds := [0, 3, 4], calls := [] }
        ['h', 'i', '\r', '\n'] =
      .ok () ({ _fd := 4 },
        { openFds := [0, 3, 4],
          calls := [] ++ [Syscall.send (Socket.fd { _fd := 4 }) ['h', 'i', '\r', '\n'] 2] }) :=
  ⟨(C11_send_fails_on_error_only (fun _ _ => -1) { _fd := 4 }
      { openFds := [0, 3, 4], calls := [] } ['h', 'i', '\r', '\n']).1 (by decide),
   (C11_send_fails_on_error_only (fun _ _ => 2) { _fd := 4 }
      { openFds := [0, 3, 4], calls := [] } ['h', 'i', '\r', '\n']).2 (by decide)⟩

/-- C14 (defect of the code): for a timeout of 1500 milliseconds `timedwait`
builds `tv_sec = 1` and `tv_nsec = 500000`, a wait of 1.0005 seconds: the
remainder in milliseconds is multiplied by 1000, which gives microseconds, not
by 1000000.  The nanosecond field itself stays below 1000000000. -/
theorem C14_timespec_of_1500_ms :
    SignalManager.timespec 1500 = { tv_sec := 1, tv_nsec := 500000 } ∧
    (SignalManager.timespec 1500).tv_sec * 1000000000 + (SignalManager.timespec 1500).tv_nsec
      ≠ 1500 * 1000000 ∧
    (SignalManager.timespec 1500).tv_nsec < 1000000000 := by
  decide

end Chat
